import Mathlib

/-!
Shallow embedding of `image-resize.go` (command image-resize), and
verification of the frozen claims about its specification.

Go `int` is modelled as `Int`; Go integer division truncates toward zero,
which is `Int.tdiv`.  Fallible Go functions returning `(..., error)` are
modelled as `Except GoErr ...` with one error constructor per distinct
`errors.New` / `fmt.Errorf` site.  The pipeline `do(par params)` is
modelled as a pure function over an environment record holding the results
of the external collaborators (decoded header configuration, decoder
success, dynamic type of the decoded image, EXIF extraction outcome), with
pixel buffers kept abstract as a term algebra `Buf` and the
`Opaque()`-related dynamic behaviour supplied as oracle functions
`Buf → Bool`.
-/

namespace ImageResize

/-- `pixelLimit = 50 * 1000000` from the `const` block of the source. -/
def pixelLimit : Int := 50 * 1000000

/-- `maxFileSize = 50 << 20` from the `const` block of the source (bounds the
byte stream fed to the decoder; kept for completeness, the byte-level
reading is not part of the shallow embedding). -/
def maxFileSize : Int := 50 <<< 20

/-- `jpeg.DefaultQuality` from Go's `image/jpeg` package. -/
def jpegDefaultQuality : Int := 75

/-- One constructor per error site of the source that the embedding reaches. -/
inductive GoErr where
  /-- `errors.New("no valid dimensions specified")` in `newTransform`. -/
  | noValidDims
  /-- `errors.New("destination size exceeds limit")` in `newTransform` and in
  the final guard of `newDimensions`. -/
  | destSizeExceeds
  /-- `fmt.Errorf("image dimensions %dx%d exceeds limit", ...)` in `do`. -/
  | imageDimsExceed
  /-- `errors.New("invalid source dimensions")` in `newDimensions`. -/
  | invalidSrcDims
  /-- `fmt.Errorf("invalid transform %v", tr)` in `newDimensions`. -/
  | invalidTransform
  /-- an error returned by `image.Decode` in `do`. -/
  | decodeFail
  /-- `errors.New("cannot crop image")` in `do`. -/
  | cannotCrop
  /-- an error returned by `rez.Convert` inside `resize`. -/
  | rezFail
deriving DecidableEq, Repr

/-- The `transform` struct of the source. -/
structure Transform where
  Width : Int
  Height : Int
  MaxWidth : Int
  MaxHeight : Int
deriving DecidableEq, Repr

/-- Two's-complement wrap of an unbounded integer into the range of Go's
64-bit `int`. -/
def wrap64 (a : Int) : Int := (a + 2 ^ 63) % 2 ^ 64 - 2 ^ 63

/-- Go's 64-bit `int` multiplication, which wraps on overflow.  For operands
whose mathematical product stays within int64 (every case reached under a
hypothesis bounding the inputs by the pixel budget) it is plain
multiplication. -/
def mul64 (a b : Int) : Int := wrap64 (a * b)

/-- `newTransform(width, height, maxWidth, maxHeight int) (transform, error)`
from the source, translated clause by clause.  The product
`tr.Width*tr.Height` is computed with Go's wrapping 64-bit multiplication:
an over-budget product that overflows and wraps to at most the budget (e.g.
`2^32 * 2^32 → 0`) is accepted, exactly as the program accepts it. -/
def newTransform (width height maxWidth maxHeight : Int) : Except GoErr Transform :=
  let tr : Transform := ⟨width, height, maxWidth, maxHeight⟩
  if tr.Width = 0 ∧ tr.Height = 0 ∧ tr.MaxWidth = 0 ∧ tr.MaxHeight = 0 then
    .error .noValidDims
  else if pixelLimit < mul64 tr.Width tr.Height ∨ pixelLimit < tr.MaxWidth ∨
      pixelLimit < tr.MaxHeight then
    .error .destSizeExceeds
  else
    .ok tr

/-- The bound fill-in prelude of the max-bounded branch of
`transform.newDimensions`:
`w, h = tr.MaxWidth, tr.MaxHeight; if w == 0 { w = origWidth * h / origHeight };
if h == 0 { h = origHeight * w / origWidth }`. -/
def maxBounds (tr : Transform) (origWidth origHeight : Int) : Int × Int :=
  let w := tr.MaxWidth
  let h := tr.MaxHeight
  let w := if w = 0 then (origWidth * h).tdiv origHeight else w
  let h := if h = 0 then (origHeight * w).tdiv origWidth else h
  (w, h)

/-- The source compares
`float64(origWidth)/float64(origHeight) > float64(w)/float64(h)`.
We model the comparison as the exact rational comparison
`origWidth * h > w * origHeight`.  For positive operands bounded by the
program's pixel budget (the orchestrator rejects a native pixel count above
`pixelLimit` before any resolution, and validation bounds the max fields by
`pixelLimit`), two distinct quotients are at least `1/(origHeight*h)` apart
while a double holds 53 significant bits, so correctly rounded `float64`
division orders them exactly as the rationals; the theorems that rely on
this branch carry those bounds as hypotheses. -/
def ratioGt (origWidth origHeight w h : Int) : Bool :=
  decide (w * origHeight < origWidth * h)

/-- The final guard of `transform.newDimensions`:
`if w*h > pixelLimit || w >= 1<<16 || h >= 1<<16 { return 0, 0, errors.New(...) };
return w, h, nil`. -/
def checkLimits (w h : Int) : Except GoErr (Int × Int) :=
  if pixelLimit < w * h ∨ 65536 ≤ w ∨ 65536 ≤ h then .error .destSizeExceeds
  else .ok (w, h)

/-- The free-aspect adjustment of the max-bounded branch:
`if tr.MaxWidth > 0 && tr.MaxHeight > 0 { if float-ratio-compare { h = ... }
else { w = ... } }` applied to the filled-in bounds of `maxBounds`. -/
def maxAdjusted (tr : Transform) (origWidth origHeight : Int) : Int × Int :=
  let wh := maxBounds tr origWidth origHeight
  if 0 < tr.MaxWidth ∧ 0 < tr.MaxHeight then
    if ratioGt origWidth origHeight wh.1 wh.2 then
      (wh.1, (origHeight * wh.1).tdiv origWidth)
    else
      ((origWidth * wh.2).tdiv origHeight, wh.2)
  else wh

/-- The exact-size branch of `transform.newDimensions`:
`w, h = tr.Width, tr.Height; if w == 0 { w = origWidth * h / origHeight };
if h == 0 { h = origHeight * w / origWidth }`. -/
def exactDims (tr : Transform) (origWidth origHeight : Int) : Int × Int :=
  let w := tr.Width
  let h := tr.Height
  let w := if w = 0 then (origWidth * h).tdiv origHeight else w
  let h := if h = 0 then (origHeight * w).tdiv origWidth else h
  (w, h)

/-- `(tr transform) newDimensions(origWidth, origHeight int) (width, height
int, err error)` from the source, translated clause by clause.  Note that the
"image already fit" early return happens before the final guard. -/
def Transform.newDimensions (tr : Transform) (origWidth origHeight : Int) :
    Except GoErr (Int × Int) :=
  if origWidth = 0 ∨ origHeight = 0 then .error .invalidSrcDims
  else if 0 < tr.MaxWidth ∨ 0 < tr.MaxHeight then
    if origWidth ≤ (maxBounds tr origWidth origHeight).1 ∧
        origHeight ≤ (maxBounds tr origWidth origHeight).2 then
      .ok (origWidth, origHeight)
    else
      checkLimits (maxAdjusted tr origWidth origHeight).1
        (maxAdjusted tr origWidth origHeight).2
  else if 0 < tr.Width ∨ 0 < tr.Height then
    checkLimits (exactDims tr origWidth origHeight).1
      (exactDims tr origWidth origHeight).2
  else .error .invalidTransform

/-- The three rotation filters of the `gift` package that the source applies:
`gift.Rotate90`, `gift.Rotate180`, `gift.Rotate270` (degrees counter-clockwise). -/
inductive Rot where
  | r90
  | r180
  | r270
deriving DecidableEq, Repr

/-- `func rotate90ccw(src image.Image) image.Image { return rotate(src, gift.Rotate270()) }`:
the rotation it applies, identified by its gift filter. -/
def rotate90ccw : Rot := .r270

/-- `func rotate90cw(src image.Image) image.Image { return rotate(src, gift.Rotate90()) }`. -/
def rotate90cw : Rot := .r90

/-- `func rotate180(src image.Image) image.Image { return rotate(src, gift.Rotate180()) }`. -/
def rotate180 : Rot := .r180

/-- The `exifData` struct of the source, abstracted to what
`useExifOrientation` inspects: whether `ed.err != nil`, whether
`ed.exif != nil`, and the outcome of `ed.exif.Get(exif.Orientation)` —
`none` when `Get` returned an error or a nil tag, otherwise the raw bytes
`o.Val` of the tag value. -/
structure ExifDataM where
  errPresent : Bool
  exifPresent : Bool
  orientVal : Option (List Nat)
deriving DecidableEq, Repr

/-- The `for _, x := range o.Val { switch x { case 3: ...; case 6: ...;
case 8: ... } }` loop of `useExifOrientation`: first byte equal to 3, 6 or 8
decides; a non-matching byte falls through to the next. -/
def orientScan : List Nat → Option Rot × Bool
  | [] => (none, false)
  | x :: rest =>
    if x = 3 then (some rotate180, false)
    else if x = 6 then (some rotate90ccw, true)
    else if x = 8 then (some rotate90cw, true)
    else orientScan rest

/-- `useExifOrientation(ed exifData) (rotatefunc func(...) ..., swapWH bool)`
from the source: nil checks, then `Get(exif.Orientation)` checks
(error, nil tag, `len(o.Val) != 2`), then the byte scan. -/
def useExifOrientation (ed : ExifDataM) : Option Rot × Bool :=
  if ed.errPresent || !ed.exifPresent then (none, false)
  else
    match ed.orientVal with
    | none => (none, false)
    | some val => if val.length ≠ 2 then (none, false) else orientScan val

/-- Core of Go's `filepath.Ext`, scanning the path from its end (the argument
is the reversed path): stop with `""` at a path separator (`'/'` on the
target platform) or at the start, stop with the suffix at the first `'.'`. -/
def extRevAux : List Char → List Char → List Char
  | [], _ => []
  | c :: rest, acc =>
    if c = '/' then []
    else if c = '.' then '.' :: acc
    else extRevAux rest (c :: acc)

/-- Go `filepath.Ext(path)`: the suffix beginning at the final dot in the
final path element, empty if there is none. -/
def filePathExt (path : List Char) : List Char :=
  extRevAux path.reverse []

/-- ASCII case of Go `strings.ToLower`, applied per character.  The source
lower-cases the output extension before comparing it with the all-ASCII
literals `".png"`, `".gif"`, `".tiff"`, `".tif"`, `".bmp"`; Go's Unicode
`ToLower` agrees with this mapping on ASCII input.  On non-ASCII input the
two can differ — Go maps U+0130 to ASCII `i` and U+212A to ASCII `k` — so
the `.gif`/`.tiff`/`.tif` dispatch of `encoderFor` is faithful only for
ASCII paths; no rune lower-cases to `.`, `p`, `n` or `g`, so the `".png"`
comparison that decides flattening agrees with Go on every path. -/
def asciiLowerChar (c : Char) : Char :=
  if 'A' ≤ c ∧ c ≤ 'Z' then Char.ofNat (c.toNat + 32) else c

/-- `strings.ToLower` on a path suffix (see `asciiLowerChar`). -/
def asciiLower (s : List Char) : List Char :=
  s.map asciiLowerChar

/-- The literal `".png"` compared against `outSuffix` in the source. -/
def pngExt : List Char := ['.', 'p', 'n', 'g']

/-- The literal `".gif"` of the encode dispatch. -/
def gifExt : List Char := ['.', 'g', 'i', 'f']

/-- The literal `".tiff"` of the encode dispatch. -/
def tiffExt : List Char := ['.', 't', 'i', 'f', 'f']

/-- The literal `".tif"` of the encode dispatch. -/
def tifExt : List Char := ['.', 't', 'i', 'f']

/-- The literal `".bmp"` of the encode dispatch. -/
def bmpExt : List Char := ['.', 'b', 'm', 'p']

/-- The codec selected by the `switch outSuffix` at the end of `do`. -/
inductive Enc where
  | gif
  | png
  | tiff
  | bmp
  | jpeg
deriving DecidableEq, Repr

/-- The `switch outSuffix` dispatch of `do`: anything that is not one of the
four named extensions encodes as JPEG. -/
def encoderFor (suffix : List Char) : Enc :=
  if suffix = gifExt then .gif
  else if suffix = pngExt then .png
  else if suffix = tiffExt ∨ suffix = tifExt then .tiff
  else if suffix = bmpExt then .bmp
  else .jpeg

/-- Dynamic type of the decoded `image.Image`, as far as the `switch
img.(type)` of `do` distinguishes it: the four representations handled by the
`rez` resampler, plus paletted and everything else (which take the
`resizeFallback` path). -/
inductive ImgClass where
  | yCbCr
  | rgba
  | nrgba
  | gray
  | paletted
  | other
deriving DecidableEq, Repr

/-- Abstract pixel buffers: the decoded image and the new buffers produced by
`SubImage`, `resize`/`resizeFallback`, white flattening, and rotation.  Every
transform stage of the source returns a fresh buffer, so a term of this
algebra records the exact provenance of the buffer. -/
inductive Buf where
  | decoded
  | sub (b : Buf) (x0 y0 side : Int)
  | resizedRez (b : Buf) (w h : Int)
  | resizedFallback (b : Buf) (w h : Int)
  | flattened (b : Buf)
  | rotated (b : Buf) (r : Rot)
deriving DecidableEq, Repr

/-- The `params` struct of the source (input path and the CLI plumbing are
outside the embedding; the output path matters through its extension). -/
structure Params where
  Width : Int
  Height : Int
  MaxWidth : Int
  MaxHeight : Int
  Output : List Char
  Square : Bool
  NoFill : Bool
  JpegQuality : Int
deriving DecidableEq, Repr

/-- Results of the external collaborators consumed by one run of `do`:
the decoded header (`image.DecodeConfig`), whether the container is JPEG,
the state of the one-slot EXIF channel at the single non-blocking receive
(`none` = nothing posted yet, the `default` branch), whether the full
`image.Decode` succeeds, whether the decoded image supports `SubImage`,
its dynamic type, and whether `rez.Convert` succeeds. -/
structure Env where
  cfgWidth : Int
  cfgHeight : Int
  kindJpeg : Bool
  exifResult : Option ExifDataM
  decodeOk : Bool
  canSubImage : Bool
  imgClass : ImgClass
  rezOk : Bool
deriving DecidableEq, Repr

/-- The pipeline state after decode, orientation swap, and optional square
crop: the effective transform, the currently resolved target size, the
orientation directive, and the current buffer. -/
structure PrepOut where
  tr : Transform
  width : Int
  height : Int
  rot : Option Rot
  srcBuf : Buf
deriving DecidableEq, Repr

/-- Observable outcome of one run of `do` (stopping at the encode dispatch;
filesystem writes are outside the embedding).  `resampled` is `none` when
the noupscale `goto saveOutput` was taken, `some true` for the `rez` path and
`some false` for the `resizeFallback` path. -/
structure DoOut where
  tr : Transform
  width : Int
  height : Int
  srcBuf : Buf
  resampled : Option Bool
  afterResize : Buf
  flattenApplied : Bool
  afterFlatten : Buf
  rotApplied : Option Rot
  outImg : Buf
  outSuffix : List Char
  enc : Enc
  quality : Int
deriving DecidableEq, Repr

/-- The `select`/`default` consumption of the EXIF channel in `do`: only for
JPEG input, only if a result is already present; otherwise no directive. -/
def exifDirective (env : Env) : Option Rot × Bool :=
  if env.kindJpeg then
    match env.exifResult with
    | some ed => useExifOrientation ed
    | none => (none, false)
  else (none, false)

/-- The `if par.Square { ... }` block of `do`: require `SubImage` support,
crop to the centered square of side `min(cfg.Width, cfg.Height)`, and
re-resolve the target size with that side as the new native size. -/
def cropStage (square : Bool) (env : Env) (tr : Transform) (width height : Int)
    (rot : Option Rot) : Except GoErr PrepOut :=
  if square then
    if env.canSubImage then
      let minSide := if env.cfgHeight < env.cfgWidth then env.cfgHeight else env.cfgWidth
      let x0 := (env.cfgWidth - minSide).tdiv 2
      let y0 := (env.cfgHeight - minSide).tdiv 2
      match tr.newDimensions minSide minSide with
      | .error e => .error e
      | .ok (w, h) => .ok ⟨tr, w, h, rot, .sub .decoded x0 y0 minSide⟩
    else .error .cannotCrop
  else .ok ⟨tr, width, height, rot, .decoded⟩

/-- Lines 59–146 of `do`: constraint validation, native pixel-count guard,
initial resolution, decode, the non-blocking EXIF consultation, the
constraint swap with re-resolution when the directive requires it, and the
optional square crop. -/
def prepare (par : Params) (env : Env) : Except GoErr PrepOut :=
  match newTransform par.Width par.Height par.MaxWidth par.MaxHeight with
  | .error e => .error e
  | .ok tr =>
    if pixelLimit < env.cfgWidth * env.cfgHeight then .error .imageDimsExceed
    else
      match tr.newDimensions env.cfgWidth env.cfgHeight with
      | .error e => .error e
      | .ok (width, height) =>
        if env.decodeOk then
          let rs := exifDirective env
          if rs.2 then
            match newTransform par.Height par.Width par.MaxHeight par.MaxWidth with
            | .error e => .error e
            | .ok tr2 =>
              match tr2.newDimensions env.cfgWidth env.cfgHeight with
              | .error e => .error e
              | .ok (w2, h2) => cropStage par.Square env tr2 w2 h2 rs.1
          else cropStage par.Square env tr width height rs.1
        else .error .decodeFail

/-- Lines 149–162 of `do`: the noupscale check
`if (cfg.Width <= width && cfg.Height <= height) && (tr.MaxWidth > 0 ||
tr.MaxHeight > 0) { outImg = img; goto saveOutput }` — note it compares
against `cfg.Width`/`cfg.Height`, the uncropped header dimensions — followed
by the `switch img.(type)` resampler dispatch.  Yields the buffer at the
`saveOutput` label together with `none` (skip taken), `some true` (`resize`
with the `rez` Lanczos filter) or `some false` (`resizeFallback`). -/
def resizeStep (env : Env) (p : PrepOut) : Except GoErr (Buf × Option Bool) :=
  if (env.cfgWidth ≤ p.width ∧ env.cfgHeight ≤ p.height)
      ∧ (0 < p.tr.MaxWidth ∨ 0 < p.tr.MaxHeight) then
    .ok (p.srcBuf, none)
  else
    match env.imgClass with
    | .yCbCr | .rgba | .nrgba | .gray =>
      if env.rezOk then .ok (.resizedRez p.srcBuf p.width p.height, some true)
      else .error .rezFail
    | _ => .ok (.resizedFallback p.srcBuf p.width p.height, some false)

/-- Lines 163–196 of `do` after the `saveOutput` label: the conditional
flattening over white (`opaquer` support, `!par.NoFill`, non-opacity report,
non-`".png"` suffix, in the source's order), the rotation, the encoder
dispatch and the JPEG quality clamp from the top of `do`. -/
def buildOut (par : Params) (hasOpq opq : Buf → Bool) (p : PrepOut)
    (buf1 : Buf) (rs : Option Bool) : DoOut :=
  let outSuffix := asciiLower (filePathExt par.Output)
  let flat := hasOpq buf1 && !par.NoFill && !(opq buf1) && !(outSuffix == pngExt)
  let buf2 := if flat then Buf.flattened buf1 else buf1
  let buf3 :=
    match p.rot with
    | some r => Buf.rotated buf2 r
    | none => buf2
  { tr := p.tr, width := p.width, height := p.height, srcBuf := p.srcBuf,
    resampled := rs, afterResize := buf1, flattenApplied := flat,
    afterFlatten := buf2, rotApplied := p.rot, outImg := buf3,
    outSuffix := outSuffix, enc := encoderFor outSuffix,
    quality := if par.JpegQuality < 1 ∨ 100 < par.JpegQuality then
      jpegDefaultQuality else par.JpegQuality }

/-- Lines 147–196 of `do`: resample-or-skip, then flatten/rotate/encode
selection. -/
def finish (par : Params) (env : Env) (hasOpq opq : Buf → Bool) (p : PrepOut) :
    Except GoErr DoOut :=
  match resizeStep env p with
  | .error e => .error e
  | .ok (buf1, rs) => .ok (buildOut par hasOpq opq p buf1 rs)

/-- `do(par params) error` from the source, as the composition of `prepare`
and `finish`.  `hasOpq b` models whether buffer `b` implements the `opaquer`
interface, `opq b` what its `Opaque()` reports. -/
def doM (par : Params) (env : Env) (hasOpq opq : Buf → Bool) : Except GoErr DoOut :=
  match prepare par env with
  | .error e => .error e
  | .ok p => finish par env hasOpq opq p

/-! ## Helper lemmas -/

/-- Truncated division equals Euclidean division on nonnegative operands
(the only regime in which the proofs below divide). -/
theorem tdiv_nonneg_eq (a b : Int) (ha : 0 ≤ a) (hb : 0 ≤ b) :
    a.tdiv b = a / b :=
  Int.tdiv_eq_ediv ha hb

/-- `checkLimits` either faithfully returns its arguments or errors. -/
theorem checkLimits_ok (w h w' h' : Int) (hok : checkLimits w h = .ok (w', h')) :
    w' = w ∧ h' = h := by
  unfold checkLimits at hok
  split at hok
  · cases hok
  · cases hok
    exact ⟨rfl, rfl⟩

/-! ## C2: constraint validation -/

/-- C2 (amended): `newTransform` fails exactly when all four fields are zero,
or the wrapping 64-bit product `Width*Height`, or `MaxWidth`, or `MaxHeight`
exceeds the pixel budget; in every other case it succeeds and returns the
four fields unchanged.  (A `Width` or `Height` alone above the budget is not
rejected, and a product that overflows int64 and wraps to at most the budget
is accepted.) -/
theorem c2_validation (w h mw mh : Int) :
    ((w = 0 ∧ h = 0 ∧ mw = 0 ∧ mh = 0) ∨ pixelLimit < mul64 w h ∨
        pixelLimit < mw ∨ pixelLimit < mh →
      ∃ e, newTransform w h mw mh = .error e) ∧
    (¬((w = 0 ∧ h = 0 ∧ mw = 0 ∧ mh = 0) ∨ pixelLimit < mul64 w h ∨
        pixelLimit < mw ∨ pixelLimit < mh) →
      newTransform w h mw mh = .ok ⟨w, h, mw, mh⟩) := by
  constructor
  · intro hfail
    simp only [newTransform]
    split
    · exact ⟨_, rfl⟩
    · split
      · exact ⟨_, rfl⟩
      · rename_i hz hl
        exact absurd hfail (by tauto)
  · intro hok
    simp only [newTransform]
    rw [if_neg (by tauto), if_neg (by tauto)]

/-- C2 counterexample to the claim as stated: a `Width` alone exceeding the
pixel budget (with `Height = 0`, so the product is within budget) passes
validation, although the claim requires every set with a single field above
the budget to be rejected; and `Width = Height = 2^32`, whose true product
`2^64` exceeds the budget but wraps to 0 in the program's 64-bit arithmetic,
also passes validation. -/
theorem c2_counterexample :
    newTransform 60000000 0 0 0 = .ok ⟨60000000, 0, 0, 0⟩ ∧
    pixelLimit < 60000000 ∧
    newTransform 4294967296 4294967296 0 0 = .ok ⟨4294967296, 4294967296, 0, 0⟩ ∧
    pixelLimit < 4294967296 * 4294967296 :=
  ⟨rfl, by decide, rfl, by decide⟩

/-- C2 witness: a concrete rejected set and a concrete accepted set. -/
theorem c2_validation_witness :
    (∃ e, newTransform 0 0 0 0 = .error e) ∧
    newTransform 3 4 5 6 = .ok ⟨3, 4, 5, 6⟩ :=
  ⟨(c2_validation 0 0 0 0).1 (Or.inl ⟨rfl, rfl, rfl, rfl⟩),
   (c2_validation 3 4 5 6).2 (by decide)⟩

/-! ## C3: max-bounded no-upscale -/

/-- C3: in max-bounded mode the resolver returns the original size unchanged,
with no error, whenever the original fits inside both (possibly
aspect-derived) bounds; in particular, with only `MaxWidth` set and the
source at most `MaxWidth` wide. -/
theorem c3_no_upscale :
    (∀ mw ow oh : Int, 0 < mw → 0 < ow → 0 < oh → ow ≤ mw →
      Transform.newDimensions ⟨0, 0, mw, 0⟩ ow oh = .ok (ow, oh)) ∧
    (∀ (tr : Transform) (ow oh : Int), (0 < tr.MaxWidth ∨ 0 < tr.MaxHeight) →
      0 < ow → 0 < oh →
      ow ≤ (maxBounds tr ow oh).1 → oh ≤ (maxBounds tr ow oh).2 →
      Transform.newDimensions tr ow oh = .ok (ow, oh)) := by
  have gen : ∀ (tr : Transform) (ow oh : Int), (0 < tr.MaxWidth ∨ 0 < tr.MaxHeight) →
      0 < ow → 0 < oh →
      ow ≤ (maxBounds tr ow oh).1 → oh ≤ (maxBounds tr ow oh).2 →
      Transform.newDimensions tr ow oh = .ok (ow, oh) := by
    intro tr ow oh hmax how hoh hw hh
    unfold Transform.newDimensions
    rw [if_neg (by omega), if_pos hmax, if_pos ⟨hw, hh⟩]
  refine ⟨?_, gen⟩
  intro mw ow oh hmw how hoh hle
  have hmb : maxBounds ⟨0, 0, mw, 0⟩ ow oh = (mw, (oh * mw).tdiv ow) := by
    simp [maxBounds, hmw.ne']
  refine gen ⟨0, 0, mw, 0⟩ ow oh (Or.inl hmw) how hoh ?_ ?_
  · rw [hmb]; exact hle
  · rw [hmb]
    rw [tdiv_nonneg_eq _ _ (by positivity) how.le]
    rw [Int.le_ediv_iff_mul_le how]
    exact Int.mul_le_mul_of_nonneg_left hle hoh.le

/-- C3 witness: the spec's own scenario (100×100 source, `maxwidth=500`)
and a two-bound instance. -/
theorem c3_no_upscale_witness :
    Transform.newDimensions ⟨0, 0, 500, 0⟩ 100 100 = .ok (100, 100) ∧
    Transform.newDimensions ⟨0, 0, 800, 600⟩ 400 300 = .ok (400, 300) :=
  ⟨c3_no_upscale.1 500 100 100 (by decide) (by decide) (by decide) (by decide),
   c3_no_upscale.2 ⟨0, 0, 800, 600⟩ 400 300 (Or.inl (by decide)) (by decide)
     (by decide) (by decide) (by decide)⟩

/-! ## C4: exact mode with both dimensions -/

/-- C4 (amended): with both `Width` and `Height` positive (and no max bound),
the resolver returns exactly `(Width, Height)` with no error for every
positive native size — provided additionally both are below `65536`;
validation alone does not guarantee that, and the resolver's final guard
rejects an axis at or above `65536` even though validation passed. -/
theorem c4_exact_both (W H ow oh : Int) (hW : 0 < W) (hH : 0 < H)
    (hprod : W * H ≤ pixelLimit) (hWax : W < 65536) (hHax : H < 65536)
    (how : 0 < ow) (hoh : 0 < oh) :
    Transform.newDimensions ⟨W, H, 0, 0⟩ ow oh = .ok (W, H) := by
  unfold Transform.newDimensions
  rw [if_neg (by omega), if_neg (by simp), if_pos (Or.inl hW)]
  have hex : exactDims ⟨W, H, 0, 0⟩ ow oh = (W, H) := by
    simp only [exactDims]
    rw [if_neg (by omega), if_neg (by omega)]
  rw [hex]
  show checkLimits W H = .ok (W, H)
  unfold checkLimits
  rw [if_neg (by push_neg; exact ⟨hprod, hWax, hHax⟩)]

/-- C4 counterexample to the claim as stated: `Width = 70000, Height = 100`
passes validation (the product is within budget), yet the resolver rejects it
because `70000 ≥ 65536`, so it does not return `(Width, Height)` with no
error. -/
theorem c4_counterexample :
    newTransform 70000 100 0 0 = .ok ⟨70000, 100, 0, 0⟩ ∧
    (70000 : Int) * 100 ≤ pixelLimit ∧
    Transform.newDimensions ⟨70000, 100, 0, 0⟩ 1000 1000 = .error .destSizeExceeds :=
  ⟨rfl, by decide, rfl⟩

/-- C4 witness: the spec's square scenario target (300×300) on a 4000×3000
source. -/
theorem c4_exact_both_witness :
    Transform.newDimensions ⟨300, 300, 0, 0⟩ 4000 3000 = .ok (300, 300) :=
  c4_exact_both 300 300 4000 3000 (by decide) (by decide) (by decide)
    (by decide) (by decide) (by decide) (by decide)

/-! ## C5: two-bound bounding box -/

/-- C5: with both max bounds positive and a positive native size that does
not fit the box, any size the resolver returns is inside the box, the
relatively longer axis keeps its bound, and the other axis is shrunk by
floor division against the source aspect ratio.  The hypotheses bounding the
fields and the native pixel count by the pixel budget delimit the regime in
which the embedded exact ratio comparison provably coincides with the
source's `float64` comparison (see `ratioGt`); the orchestrator establishes
them before the resolver ever runs. -/
theorem c5_bounding_box (tr : Transform) (ow oh : Int)
    (hmw : 0 < tr.MaxWidth) (hmh : 0 < tr.MaxHeight)
    (how : 0 < ow) (hoh : 0 < oh)
    (_hbw : tr.MaxWidth ≤ pixelLimit) (_hbh : tr.MaxHeight ≤ pixelLimit)
    (_hnat : ow * oh ≤ pixelLimit)
    (hnofit : ¬(ow ≤ tr.MaxWidth ∧ oh ≤ tr.MaxHeight)) :
    ∀ w h : Int, Transform.newDimensions tr ow oh = .ok (w, h) →
      w ≤ tr.MaxWidth ∧ h ≤ tr.MaxHeight ∧
      (ratioGt ow oh tr.MaxWidth tr.MaxHeight = true →
        w = tr.MaxWidth ∧ h = (oh * tr.MaxWidth).tdiv ow) ∧
      (ratioGt ow oh tr.MaxWidth tr.MaxHeight = false →
        h = tr.MaxHeight ∧ w = (ow * tr.MaxHeight).tdiv oh) := by
  intro w h hok
  have hmb : maxBounds tr ow oh = (tr.MaxWidth, tr.MaxHeight) := by
    simp only [maxBounds]
    rw [if_neg (by omega), if_neg (by omega)]
  unfold Transform.newDimensions at hok
  rw [if_neg (by omega), if_pos (Or.inl hmw), hmb] at hok
  rw [if_neg hnofit] at hok
  cases hrg : ratioGt ow oh tr.MaxWidth tr.MaxHeight with
  | true =>
    have hlt : tr.MaxWidth * oh < ow * tr.MaxHeight := by
      simpa [ratioGt] using hrg
    have hadj : maxAdjusted tr ow oh = (tr.MaxWidth, (oh * tr.MaxWidth).tdiv ow) := by
      simp only [maxAdjusted, hmb]
      rw [if_pos ⟨hmw, hmh⟩, if_pos hrg]
    rw [hadj] at hok
    obtain ⟨hw, hh⟩ := checkLimits_ok _ _ _ _ hok
    subst hw hh
    have hhle : (oh * tr.MaxWidth).tdiv ow < tr.MaxHeight := by
      rw [tdiv_nonneg_eq _ _ (by positivity) how.le]
      rw [Int.ediv_lt_iff_lt_mul how]
      calc oh * tr.MaxWidth = tr.MaxWidth * oh := by ring
        _ < ow * tr.MaxHeight := hlt
        _ = tr.MaxHeight * ow := by ring
    exact ⟨le_refl _, hhle.le, fun _ => ⟨rfl, rfl⟩, fun hcon => absurd hcon (by decide)⟩
  | false =>
    have hge : ow * tr.MaxHeight ≤ tr.MaxWidth * oh := by
      simpa [ratioGt] using hrg
    have hadj : maxAdjusted tr ow oh = ((ow * tr.MaxHeight).tdiv oh, tr.MaxHeight) := by
      simp only [maxAdjusted, hmb]
      rw [if_pos ⟨hmw, hmh⟩, if_neg (by simp [hrg])]
    rw [hadj] at hok
    obtain ⟨hw, hh⟩ := checkLimits_ok _ _ _ _ hok
    subst hw hh
    have hwle : (ow * tr.MaxHeight).tdiv oh ≤ tr.MaxWidth := by
      rw [tdiv_nonneg_eq _ _ (by positivity) hoh.le]
      exact Int.ediv_le_of_le_mul hoh (by linarith [hge])
    exact ⟨hwle, le_refl _, fun hcon => absurd hcon (by decide), fun _ => ⟨rfl, rfl⟩⟩

/-- C5 witness: the spec's scenario — 4000×3000 source, 800×800 box →
(800, 600). -/
theorem c5_bounding_box_witness :
    (800 : Int) ≤ 800 ∧ (600 : Int) ≤ 800 ∧
    (ratioGt 4000 3000 800 800 = true →
      (800 : Int) = 800 ∧ (600 : Int) = ((3000 : Int) * 800).tdiv 4000) ∧
    (ratioGt 4000 3000 800 800 = false →
      (600 : Int) = 800 ∧ (800 : Int) = ((4000 : Int) * 800).tdiv 3000) :=
  c5_bounding_box ⟨0, 0, 800, 800⟩ 4000 3000 (by decide) (by decide) (by decide)
    (by decide) (by decide) (by decide) (by decide) (by decide) 800 600 rfl

/-! ## C9: a zero dimension passes the final guard -/

/-- C9: a validated constraint set (`Height = 1` only) and the positive
native size 1×10000 make the resolver floor-divide the derived width to zero
and return it with no error: neither the pixel budget nor the per-axis guard
rejects a zero dimension. -/
theorem c9_zero_dimension :
    newTransform 0 1 0 0 = .ok ⟨0, 1, 0, 0⟩ ∧
    Transform.newDimensions ⟨0, 1, 0, 0⟩ 1 10000 = .ok (0, 1) :=
  ⟨rfl, rfl⟩

/-! ## C10: negative dimensions are never rejected -/

/-- C10: the constraint set `Width = -5, Height = 10` passes validation (the
all-zero check fails and the product −50 is within budget) and the resolver
returns the negative width unchanged with no error for every positive native
size. -/
theorem c10_negative_accepted (ow oh : Int) (how : 0 < ow) (hoh : 0 < oh) :
    newTransform (-5) 10 0 0 = .ok ⟨-5, 10, 0, 0⟩ ∧
    Transform.newDimensions ⟨-5, 10, 0, 0⟩ ow oh = .ok (-5, 10) := by
  refine ⟨rfl, ?_⟩
  unfold Transform.newDimensions
  rw [if_neg (by omega), if_neg (by simp), if_pos (by right; decide)]
  have hex : exactDims ⟨-5, 10, 0, 0⟩ ow oh = (-5, 10) := by
    simp only [exactDims]
    rw [if_neg (by omega), if_neg (by omega)]
  rw [hex]
  unfold checkLimits
  rw [if_neg (by decide)]

/-- C10 witness: the statement at the concrete native size 7×9. -/
theorem c10_negative_accepted_witness :
    newTransform (-5) 10 0 0 = .ok ⟨-5, 10, 0, 0⟩ ∧
    Transform.newDimensions ⟨-5, 10, 0, 0⟩ 7 9 = .ok (-5, 10) :=
  c10_negative_accepted 7 9 (by decide) (by decide)

/-! ## C6: orientation value mapping -/

/-- Modelled from the spec for comparison: the orientation mapping table of
§4.2, stated on the tag value — 3 ↦ 180° no swap, 6 ↦ 270° with swap,
8 ↦ 90° with swap, everything else ↦ no directive. -/
def specOrientMapping (v : Nat) : Option Rot × Bool :=
  if v = 3 then (some Rot.r180, false)
  else if v = 6 then (some Rot.r270, true)
  else if v = 8 then (some Rot.r90, true)
  else (none, false)

/-- The byte scan agrees with the spec's value table on a single byte. -/
theorem orientScan_single (v : Nat) :
    orientScan [v] = specOrientMapping v := by
  by_cases h3 : v = 3
  · simp [orientScan, specOrientMapping, h3, rotate180]
  by_cases h6 : v = 6
  · simp [orientScan, specOrientMapping, h3, h6, rotate90ccw]
  by_cases h8 : v = 8
  · simp [orientScan, specOrientMapping, h3, h6, h8, rotate90cw]
  simp [orientScan, specOrientMapping, h3, h6, h8]

/-- The byte scan agrees with the spec's value table on a byte followed by a
zero byte. -/
theorem orientScan_single_zero (v : Nat) :
    orientScan [v, 0] = specOrientMapping v := by
  by_cases h3 : v = 3
  · simp [orientScan, specOrientMapping, h3, rotate180]
  by_cases h6 : v = 6
  · simp [orientScan, specOrientMapping, h3, h6, rotate90ccw]
  by_cases h8 : v = 8
  · simp [orientScan, specOrientMapping, h3, h6, h8, rotate90cw]
  simp [orientScan, specOrientMapping, h3, h6, h8]

/-- A byte that is not 3, 6 or 8 falls through to the rest of the scan. -/
theorem orientScan_cons (x : Nat) (rest : List Nat)
    (h3 : x ≠ 3) (h6 : x ≠ 6) (h8 : x ≠ 8) :
    orientScan (x :: rest) = orientScan rest := by
  simp only [orientScan]
  rw [if_neg h3, if_neg h6, if_neg h8]

/-- C6 (amended): on a two-byte orientation tag with the value in one byte
and zero in the other (any value 0–255, either byte order),
`useExifOrientation` realises exactly the spec's table: 3 → 180° rotation
without swap, 6 → 270° rotation with swap, 8 → 90° rotation with swap, any
other such value → no directive; any error, missing EXIF structure,
unreadable tag, or tag of the wrong byte length also yields no directive.
On an arbitrary two-byte tag, however, the per-byte scan fires on the first
byte equal to 3, 6 or 8, so a malformed tag with two nonzero bytes can
still produce a directive. -/
theorem c6_orientation_mapping :
    (∀ v : Nat, v < 256 →
      useExifOrientation ⟨false, true, some [0, v]⟩ = specOrientMapping v ∧
      useExifOrientation ⟨false, true, some [v, 0]⟩ = specOrientMapping v) ∧
    (∀ ed : ExifDataM,
      ed.errPresent = true ∨ ed.exifPresent = false ∨ ed.orientVal = none ∨
        (∃ l, ed.orientVal = some l ∧ l.length ≠ 2) →
      useExifOrientation ed = (none, false)) ∧
    (∀ b1 b2 : Nat,
      useExifOrientation ⟨false, true, some [b1, b2]⟩ =
        if b1 = 3 ∨ b1 = 6 ∨ b1 = 8 then specOrientMapping b1
        else specOrientMapping b2) := by
  refine ⟨?_, ?_, ?_⟩
  · intro v _hv
    constructor
    · have hred : useExifOrientation ⟨false, true, some [0, v]⟩ = orientScan [v] := by
        simp [useExifOrientation, orientScan]
      exact hred.trans (orientScan_single v)
    · have hred : useExifOrientation ⟨false, true, some [v, 0]⟩ = orientScan [v, 0] := by
        simp [useExifOrientation]
      exact hred.trans (orientScan_single_zero v)
  · intro ed hfail
    unfold useExifOrientation
    rcases hfail with hf | hf | hf | ⟨l, hl, hlen⟩
    · rw [hf]; simp
    · rw [hf]; simp
    · rw [hf]; split <;> rfl
    · rw [hl]
      split
      · rfl
      · simp [hlen]
  · intro b1 b2
    have hred : useExifOrientation ⟨false, true, some [b1, b2]⟩ =
        orientScan [b1, b2] := by
      simp [useExifOrientation]
    rw [hred]
    by_cases h3 : b1 = 3
    · simp [orientScan, specOrientMapping, h3, rotate180]
    by_cases h6 : b1 = 6
    · simp [orientScan, specOrientMapping, h3, h6, rotate90ccw]
    by_cases h8 : b1 = 8
    · simp [orientScan, specOrientMapping, h3, h6, h8, rotate90cw]
    rw [orientScan_cons b1 [b2] h3 h6 h8, orientScan_single b2,
      if_neg (by tauto)]

/-- C6 counterexample to the claim as stated: the malformed two-byte tag
`Val = [1, 6]` encodes the orientation value 262 (big-endian) or 1537
(little-endian) — neither 3, 6 nor 8 — yet the per-byte scan produces the
270°-rotation-with-swap directive instead of no directive. -/
theorem c6_counterexample :
    useExifOrientation ⟨false, true, some [1, 6]⟩ = (some rotate90ccw, true) ∧
    (256 * 1 + 6 : Nat) = 262 ∧ (256 * 6 + 1 : Nat) = 1537 ∧
    specOrientMapping 262 = (none, false) ∧
    specOrientMapping 1537 = (none, false) := by
  refine ⟨rfl, rfl, rfl, rfl, rfl⟩

/-- C6 witness: tag value 6 in both byte orders, a failed extraction, and
the malformed tag `[1, 6]` via the general byte-scan characterisation. -/
theorem c6_orientation_mapping_witness :
    (useExifOrientation ⟨false, true, some [0, 6]⟩ = specOrientMapping 6 ∧
      useExifOrientation ⟨false, true, some [6, 0]⟩ = specOrientMapping 6) ∧
    useExifOrientation ⟨true, true, some [0, 3]⟩ = (none, false) ∧
    useExifOrientation ⟨false, true, some [1, 6]⟩ = specOrientMapping 6 :=
  ⟨c6_orientation_mapping.1 6 (by decide),
   c6_orientation_mapping.2.1 ⟨true, true, some [0, 3]⟩ (Or.inl rfl),
   c6_orientation_mapping.2.2 1 6⟩

/-! ## C8: metadata failures are swallowed -/

/-- C8: an EXIF outcome carrying an error, a nil EXIF structure, or an
unreadable orientation tag derives no directive, and a run of the pipeline
that receives such an outcome is indistinguishable from a run in which the
metadata task posted nothing at all: a metadata failure never aborts the job
or surfaces as an error. -/
theorem c8_metadata_swallowed (ed : ExifDataM)
    (hfail : ed.errPresent = true ∨ ed.exifPresent = false ∨ ed.orientVal = none) :
    useExifOrientation ed = (none, false) ∧
    ∀ (par : Params) (env : Env) (hasOpq opq : Buf → Bool),
      env.exifResult = some ed →
      doM par env hasOpq opq = doM par { env with exifResult := none } hasOpq opq := by
  have h1 : useExifOrientation ed = (none, false) := by
    unfold useExifOrientation
    rcases hfail with hf | hf | hf
    · rw [hf]; simp
    · rw [hf]; simp
    · rw [hf]; split <;> rfl
  refine ⟨h1, ?_⟩
  intro par env hasOpq opq hex
  obtain ⟨cw, ch, kj, ex, dok, cs, ic, rz⟩ := env
  simp only at hex
  subst hex
  have hprep : prepare par ⟨cw, ch, kj, some ed, dok, cs, ic, rz⟩ =
      prepare par ⟨cw, ch, kj, none, dok, cs, ic, rz⟩ := by
    simp only [prepare, cropStage, exifDirective, h1]
  unfold doM
  rw [hprep]
  cases prepare par ⟨cw, ch, kj, none, dok, cs, ic, rz⟩ with
  | error e => rfl
  | ok p => rfl

/-- C8 witness: a concrete failed outcome (error set, readable bytes),
a concrete job, and the equality of the two runs. -/
theorem c8_metadata_swallowed_witness :
    useExifOrientation ⟨true, true, some [0, 6]⟩ = (none, false) ∧
    doM ⟨0, 0, 200, 0, ['o', '.', 'j', 'p', 'g'], false, false, 75⟩
        ⟨300, 400, true, some ⟨true, true, some [0, 6]⟩, true, true, .yCbCr, true⟩
        (fun _ => false) (fun _ => false) =
      doM ⟨0, 0, 200, 0, ['o', '.', 'j', 'p', 'g'], false, false, 75⟩
        { cfgWidth := 300, cfgHeight := 400, kindJpeg := true, exifResult := none,
          decodeOk := true, canSubImage := true, imgClass := .yCbCr, rezOk := true }
        (fun _ => false) (fun _ => false) :=
  ⟨(c8_metadata_swallowed ⟨true, true, some [0, 6]⟩ (Or.inl rfl)).1,
   (c8_metadata_swallowed ⟨true, true, some [0, 6]⟩ (Or.inl rfl)).2
     ⟨0, 0, 200, 0, ['o', '.', 'j', 'p', 'g'], false, false, 75⟩
     ⟨300, 400, true, some ⟨true, true, some [0, 6]⟩, true, true, .yCbCr, true⟩
     (fun _ => false) (fun _ => false) rfl⟩

/-! ## Pipeline shape lemmas shared by C1 and C7 -/

/-- A successful `finish` is a successful `resizeStep` assembled by
`buildOut`. -/
theorem finish_ok_spec (par : Params) (env : Env) (hasOpq opq : Buf → Bool)
    (p : PrepOut) (out : DoOut) (h : finish par env hasOpq opq p = .ok out) :
    ∃ buf1 rs, resizeStep env p = .ok (buf1, rs) ∧
      out = buildOut par hasOpq opq p buf1 rs := by
  unfold finish at h
  cases hstep : resizeStep env p with
  | error e => rw [hstep] at h; cases h
  | ok pr =>
    obtain ⟨buf1, rs⟩ := pr
    rw [hstep] at h
    exact ⟨buf1, rs, rfl, (Except.ok.inj h).symm⟩

/-- What a successful `resizeStep` says: the skip is taken exactly under the
source's noupscale condition, and then the buffer passes through unchanged. -/
theorem resizeStep_ok (env : Env) (p : PrepOut) (buf : Buf) (rs : Option Bool)
    (h : resizeStep env p = .ok (buf, rs)) :
    (rs = none ↔
      (env.cfgWidth ≤ p.width ∧ env.cfgHeight ≤ p.height) ∧
      (0 < p.tr.MaxWidth ∨ 0 < p.tr.MaxHeight)) ∧
    (rs = none → buf = p.srcBuf) := by
  unfold resizeStep at h
  split at h
  · rename_i hc
    injection h with h2
    injection h2 with hb hr
    subst hb; subst hr
    constructor
    · constructor
      · intro _hnone; exact hc
      · intro _hcond; rfl
    · intro _hnone; rfl
  · rename_i hnc
    split at h
    all_goals
      first
      | · split at h
          · injection h with h2
            injection h2 with hb hr
            subst hb; subst hr
            constructor
            · constructor
              · intro hnone; cases hnone
              · intro hcond; exact absurd hcond hnc
            · intro hnone; cases hnone
          · cases h
      | · injection h with h2
          injection h2 with hb hr
          subst hb; subst hr
          constructor
          · constructor
            · intro hnone; cases hnone
            · intro hcond; exact absurd hcond hnc
          · intro hnone; cases hnone

/-- The flattening guard of the source, as a propositional characterisation
of its boolean conjunction. -/
theorem flatten_cond_iff (a nf b : Bool) (s : List Char) :
    (a && !nf && !b && !(s == pngExt)) = true ↔
      a = true ∧ nf = false ∧ b = false ∧ s ≠ pngExt := by
  cases a <;> cases nf <;> cases b <;>
    by_cases hs : s = pngExt <;> simp [hs]

/-! ## C1: the upscale-skip rule -/

/-- C1 (amended): resampling is skipped exactly when max-bounded mode is
active in the effective transform and both resolved target dimensions are at
least the ORIGINAL native header dimensions (`cfg.Width`, `cfg.Height`) —
not the crop-adjusted native dimensions — and the skipped buffer passes
through unchanged; since the condition requires a positive max field,
exact-size-only constraints always resample, even when upscaling. -/
theorem c1_upscale_skip (par : Params) (env : Env) (hasOpq opq : Buf → Bool)
    (out : DoOut) (h : doM par env hasOpq opq = .ok out) :
    (out.resampled = none ↔
      (env.cfgWidth ≤ out.width ∧ env.cfgHeight ≤ out.height) ∧
      (0 < out.tr.MaxWidth ∨ 0 < out.tr.MaxHeight)) ∧
    (out.resampled = none → out.afterResize = out.srcBuf) := by
  unfold doM at h
  cases hp : prepare par env with
  | error e => rw [hp] at h; cases h
  | ok p =>
    rw [hp] at h
    obtain ⟨buf1, rs, hstep, hout⟩ := finish_ok_spec _ _ _ _ _ _ h
    subst hout
    obtain ⟨hiff, himp⟩ := resizeStep_ok _ _ _ _ hstep
    simp only [buildOut]
    exact ⟨hiff, himp⟩

/-- Concrete job for the C1 counterexample: 100×50 source, `square` set,
`maxwidth=80`. -/
def c1xPar : Params := ⟨0, 0, 80, 0, ['o', '.', 'j', 'p', 'g'], true, true, 75⟩

/-- Concrete environment for the C1 counterexample. -/
def c1xEnv : Env := ⟨100, 50, false, none, true, true, .rgba, true⟩

/-- The output of the C1 counterexample run. -/
def c1xOut : DoOut :=
  { tr := ⟨0, 0, 80, 0⟩, width := 50, height := 50,
    srcBuf := .sub .decoded 25 0 50, resampled := some true,
    afterResize := .resizedRez (.sub .decoded 25 0 50) 50 50,
    flattenApplied := false,
    afterFlatten := .resizedRez (.sub .decoded 25 0 50) 50 50,
    rotApplied := none,
    outImg := .resizedRez (.sub .decoded 25 0 50) 50 50,
    outSuffix := ['.', 'j', 'p', 'g'], enc := .jpeg, quality := 75 }

/-- C1 counterexample to the claim as stated: a 100×50 source with `square`
set and `maxwidth=80` crops to a 50×50 square, resolves the target to
(50, 50) — so max-bounded mode is active and both target dimensions equal
the crop-adjusted native side 50 — yet the pipeline resamples instead of
skipping, because its check compares the target against the uncropped
100×50 header size. -/
theorem c1_upscale_skip_counterexample :
    doM c1xPar c1xEnv (fun _ => false) (fun _ => false) = .ok c1xOut ∧
    (0 < c1xOut.tr.MaxWidth ∨ 0 < c1xOut.tr.MaxHeight) ∧
    min c1xEnv.cfgWidth c1xEnv.cfgHeight = 50 ∧
    c1xOut.srcBuf = .sub .decoded 25 0 50 ∧
    (50 ≤ c1xOut.width ∧ 50 ≤ c1xOut.height) ∧
    c1xOut.resampled ≠ none ∧
    c1xOut.afterResize ≠ c1xOut.srcBuf :=
  ⟨rfl, by decide, by decide, by decide, by decide, by decide, by decide⟩

/-- Concrete job for the C1 witness: 100×100 source, `maxwidth=500`. -/
def c1wPar : Params := ⟨0, 0, 500, 0, ['o', '.', 'j', 'p', 'g'], false, true, 75⟩

/-- Concrete environment for the C1 witness. -/
def c1wEnv : Env := ⟨100, 100, false, none, true, true, .rgba, true⟩

/-- The output of the C1 witness run. -/
def c1wOut : DoOut :=
  { tr := ⟨0, 0, 500, 0⟩, width := 100, height := 100,
    srcBuf := .decoded, resampled := none,
    afterResize := .decoded, flattenApplied := false,
    afterFlatten := .decoded, rotApplied := none, outImg := .decoded,
    outSuffix := ['.', 'j', 'p', 'g'], enc := .jpeg, quality := 75 }

/-- C1 witness: on the spec's no-upscale scenario (100×100 source inside
`maxwidth=500`) the skip is taken and the buffer passes through unchanged. -/
theorem c1_upscale_skip_witness :
    c1wOut.resampled = none ∧ c1wOut.afterResize = c1wOut.srcBuf := by
  have hok : doM c1wPar c1wEnv (fun _ => false) (fun _ => false) = .ok c1wOut := rfl
  have h := c1_upscale_skip c1wPar c1wEnv (fun _ => false) (fun _ => false) c1wOut hok
  exact ⟨h.1.mpr (by decide), h.2 (h.1.mpr (by decide))⟩

/-! ## C7: conditional flattening -/

/-- C7: flattening over opaque white is applied to the output buffer exactly
when the buffer reports non-opacity (it implements `opaquer` and `Opaque()`
is false), `nofill` is not set, and the lower-cased output extension is not
`".png"`; when applied, the encoded buffer is the flattened one, otherwise
the buffer is untouched. -/
theorem c7_flatten_iff (par : Params) (env : Env) (hasOpq opq : Buf → Bool)
    (out : DoOut) (h : doM par env hasOpq opq = .ok out) :
    out.outSuffix = asciiLower (filePathExt par.Output) ∧
    (out.flattenApplied = true ↔
      hasOpq out.afterResize = true ∧ par.NoFill = false ∧
      opq out.afterResize = false ∧ out.outSuffix ≠ pngExt) ∧
    (out.flattenApplied = true → out.afterFlatten = .flattened out.afterResize) ∧
    (out.flattenApplied = false → out.afterFlatten = out.afterResize) := by
  unfold doM at h
  cases hp : prepare par env with
  | error e => rw [hp] at h; cases h
  | ok p =>
    rw [hp] at h
    obtain ⟨buf1, rs, hstep, hout⟩ := finish_ok_spec _ _ _ _ _ _ h
    subst hout
    simp only [buildOut]
    refine ⟨trivial, flatten_cond_iff _ _ _ _, ?_, ?_⟩
    · intro hf
      rw [if_pos hf]
    · intro hf
      rw [if_neg (by simp [hf])]

/-- Concrete job for the C7 witness, JPEG output. -/
def c7wPar : Params := ⟨300, 300, 0, 0, ['o', '.', 'j', 'p', 'g'], false, false, 80⟩

/-- The same job with PNG output. -/
def c7wParPng : Params := ⟨300, 300, 0, 0, ['o', '.', 'p', 'n', 'g'], false, false, 80⟩

/-- Concrete environment for the C7 witness: a transparent NRGBA source. -/
def c7wEnv : Env := ⟨1000, 800, false, none, true, true, .nrgba, true⟩

/-- Opacity oracle of the C7 witness: every buffer implements `opaquer`. -/
def c7wHasOpq : Buf → Bool := fun _ => true

/-- Opacity oracle of the C7 witness: every buffer reports transparency. -/
def c7wOpq : Buf → Bool := fun _ => false

/-- The output of the C7 witness run with JPEG output. -/
def c7wOut : DoOut :=
  { tr := ⟨300, 300, 0, 0⟩, width := 300, height := 300,
    srcBuf := .decoded, resampled := some true,
    afterResize := .resizedRez .decoded 300 300, flattenApplied := true,
    afterFlatten := .flattened (.resizedRez .decoded 300 300),
    rotApplied := none, outImg := .flattened (.resizedRez .decoded 300 300),
    outSuffix := ['.', 'j', 'p', 'g'], enc := .jpeg, quality := 80 }

/-- The output of the C7 witness run with PNG output. -/
def c7wOutPng : DoOut :=
  { tr := ⟨300, 300, 0, 0⟩, width := 300, height := 300,
    srcBuf := .decoded, resampled := some true,
    afterResize := .resizedRez .decoded 300 300, flattenApplied := false,
    afterFlatten := .resizedRez .decoded 300 300,
    rotApplied := none, outImg := .resizedRez .decoded 300 300,
    outSuffix := ['.', 'p', 'n', 'g'], enc := .png, quality := 80 }

/-- C7 witness: the spec's scenario — a transparent source encoded to
`.jpg` with `nofill` unset is flattened over white, the same source encoded
to `.png` keeps its alpha. -/
theorem c7_flatten_iff_witness :
    c7wOut.flattenApplied = true ∧
    c7wOut.afterFlatten = .flattened c7wOut.afterResize ∧
    c7wOutPng.flattenApplied = false ∧
    c7wOutPng.afterFlatten = c7wOutPng.afterResize := by
  have hj := c7_flatten_iff c7wPar c7wEnv c7wHasOpq c7wOpq c7wOut rfl
  have hp := c7_flatten_iff c7wParPng c7wEnv c7wHasOpq c7wOpq c7wOutPng rfl
  have h1 : c7wOut.flattenApplied = true :=
    hj.2.1.mpr ⟨rfl, rfl, rfl, by decide⟩
  have h2 : c7wOutPng.flattenApplied = false := by
    cases hfa : c7wOutPng.flattenApplied with
    | false => rfl
    | true => exact absurd ((hp.2.1.mp hfa).2.2.2) (by decide)
  exact ⟨h1, hj.2.2.1 h1, h2, hp.2.2.2 h2⟩

end ImageResize
